import Mathlib

/-!
Verification of the request-orchestration / model-abstraction layer of the
RizviGPT backend (`backend/llm_service.py`).

Python strings are modelled as `List Char`; the Python string operations the
service uses (`in`, `split`, `replace`, `strip`, `lower`, slicing, `join`)
are defined below, faithful to CPython semantics on the call sites that
occur in the source (all patterns are non-empty).  External collaborators
(the Groq API client, the HuggingFace pipeline, the filesystem and the
environment) are passed in as oracles, as the spec treats them: opaque
"generate text given a prompt" capabilities.
-/

namespace Rizvi

set_option maxRecDepth 100000

/-- A Python `str`, modelled as its list of characters. -/
abbrev Str := List Char

/-- Convert a Lean string literal to the model type. -/
def str (s : String) : Str := s.toList

/-- The characters Python's `str.split()` / `str.strip()` treat as whitespace
(ASCII range; the configuration and model outputs are ASCII text). -/
def isPySpace (c : Char) : Bool :=
  c = ' ' || c = '\t' || c = '\n' || c = '\r' || c = Char.ofNat 11 || c = Char.ofNat 12

/-- Python `s.strip()`, trailing half: drop trailing whitespace. -/
def stripEnd (s : Str) : Str := (s.reverse.dropWhile isPySpace).reverse

/-- Python `s.strip()`: drop leading and trailing whitespace. -/
def pyStrip (s : Str) : Str := stripEnd (s.dropWhile isPySpace)

/-- Python `pat in s` (substring containment). -/
def pyContains (s pat : Str) : Bool :=
  match s with
  | [] => pat.isEmpty
  | c :: cs => pat.isPrefixOf (c :: cs) || pyContains cs pat

/-- Python `s.split(pat)[0]` for a non-empty `pat`: the prefix of `s` before
the first occurrence of `pat` (all of `s` when `pat` does not occur). -/
def takeUntil (pat : Str) : Str → Str
  | [] => []
  | c :: cs => if pat.isPrefixOf (c :: cs) then [] else c :: takeUntil pat cs

/-- Worker for Python `s.replace(p :: ps, "")`: scan left to right; on a
match, skip the rest of the matched occurrence (the counter `k` counts
characters still to skip, keeping the recursion structural). -/
def removeAllAux (p : Char) (ps : Str) : Str → Nat → Str
  | [], _ => []
  | _ :: cs, Nat.succ k => removeAllAux p ps cs k
  | c :: cs, 0 =>
    if (p :: ps).isPrefixOf (c :: cs) then removeAllAux p ps cs ps.length
    else c :: removeAllAux p ps cs 0

/-- Python `s.replace(p :: ps, "")` for the non-empty pattern `p :: ps`:
remove every (leftmost, non-overlapping) occurrence of the pattern. -/
def removeAll (p : Char) (ps : Str) (s : Str) : Str := removeAllAux p ps s 0

/-- Worker for Python `s.split(p :: ps)`, with the same skip counter as
`removeAllAux`: on a match, close the current piece and skip the rest of
the matched separator. -/
def pySplitOnAux (p : Char) (ps : Str) : Str → Nat → List Str
  | [], _ => [[]]
  | _ :: cs, Nat.succ k => pySplitOnAux p ps cs k
  | c :: cs, 0 =>
    if (p :: ps).isPrefixOf (c :: cs) then [] :: pySplitOnAux p ps cs ps.length
    else
      match pySplitOnAux p ps cs 0 with
      | [] => [[c]]
      | w :: ws => (c :: w) :: ws

/-- Python `s.split(p :: ps)` for the non-empty separator `p :: ps`. -/
def pySplitOn (p : Char) (ps : Str) (s : Str) : List Str := pySplitOnAux p ps s 0

/-- Split at every single whitespace character (empty pieces kept). -/
def splitAtSpaces : Str → List Str
  | [] => [[]]
  | c :: cs =>
    let rest := splitAtSpaces cs
    if isPySpace c then [] :: rest
    else
      match rest with
      | [] => [[c]]
      | w :: ws => (c :: w) :: ws

/-- Python `s.split()` (no argument): split on whitespace runs, dropping
empty pieces. -/
def pySplitWs (s : Str) : List Str :=
  (splitAtSpaces s).filter (fun w => !w.isEmpty)

/-- Python `sep.join(parts)`. -/
def joinSep (sep : Str) : List Str → Str
  | [] => []
  | [x] => x
  | x :: y :: t => x ++ sep ++ joinSep sep (y :: t)

/-- ASCII lowering of one character (`str.lower` on the ASCII configuration
values the service reads). -/
def lowerChar (c : Char) : Char :=
  if 'A' ≤ c ∧ c ≤ 'Z' then Char.ofNat (c.toNat + 32) else c

/-- Python `s.lower()` on ASCII strings. -/
def pyLower (s : Str) : Str := s.map lowerChar

/-! ## Data model -/

/-- One chat message, as the dicts the service receives and builds:
`role` / `content` keys that may be absent (`msg.get` is used with defaults
in the source). -/
structure Msg where
  role : Option Str
  content : Option Str
deriving DecidableEq

/-- Python truthiness of the optional string arguments (`if context:` is
false for both `None` and the empty string). -/
def optTruthy : Option Str → Bool
  | none => false
  | some s => !s.isEmpty

/-- The service state (`LLMService.__init__`): the mode flag plus the
backend-specific identifiers.  The heavyweight resources (Groq client,
tokenizer, model, pipeline) are opaque capabilities and are passed to the
generation functions as oracles. -/
structure LLMService where
  use_local_model : Bool
  model : Option Str
  local_path : Option Str
deriving DecidableEq

/-! ## Local prompt builder (`_build_local_prompt`) -/

/-- One history turn rendered for the local prompt:
`msg.get("role", "user")`, `msg.get("content", "")`, then
`"Question: <content>"` for role `"user"`, else `"Answer: <content>"`. -/
def renderTurn (m : Msg) : Str :=
  let role := m.role.getD (str "user")
  let content := m.content.getD []
  if role = str "user" then str "Question: " ++ content
  else str "Answer: " ++ content

/-- The prompt parts list (`prompt_parts`) built by `_build_local_prompt`: optional context
block, the last 3 history turns rendered, the current query as a question,
and the trailing answer cue. -/
def localPromptParts (query : Str) (context : Option Str) (chat_history : List Msg) : List Str :=
  (if optTruthy context then [str "Context from college documents:", context.getD [], []] else [])
  ++ (if chat_history.isEmpty then []
      else (chat_history.drop (chat_history.length - 3)).map renderTurn)
  ++ [str "Question: " ++ query, str "Answer:"]

/-- Translation of `_build_local_prompt`: `"\n".join(prompt_parts)`. -/
def build_local_prompt (query : Str) (context : Option Str) (chat_history : List Msg) : Str :=
  joinSep (str "\n") (localPromptParts query context chat_history)

/-! ## Response cleaner (`_clean_response`) -/

/-- The label that triggers truncation in `_clean_response`. -/
def qLabel : Str := str "Question:"

/-- The label removed by `_clean_response`. -/
def aLabel : Str := str "Answer:"

/-- Translation of `_clean_response`: truncate at the first `"Question:"`, remove every
`"Answer:"` and strip, keep only the first paragraph when the text has a
blank-line break and exceeds 500 characters, and strip again. -/
def clean_response (response : Str) : Str :=
  let r1 := if pyContains response qLabel then takeUntil qLabel response else response
  let r2 := pyStrip (removeAll 'A' (str "nswer:") r1)
  let paragraphs := pySplitOn '\n' (str "\n") r2
  let r3 := if 1 < paragraphs.length ∧ 500 < r2.length then paragraphs.headD [] else r2
  pyStrip r3

/-! ## Remote (Groq) generation paths

The remote completion call is modelled by an oracle: for the synchronous
path, `api : List Msg → Str` returns `response.choices[0].message.content`
for the message list sent (the sampling parameters are fixed in the source
— temperature 0.7, max tokens 1024 — and are folded into the oracle); for
the streaming path, `apiStream : List Msg → List Str` returns the sequence
of `chunk.choices[0].delta.content` values of the stream. -/

/-- The system prompt of `_generate_groq` (exact source literal). -/
def systemPromptSync : Str := str "\n            You are RizviGPT, an AI assistant with deep knowledge about the Rizvi College Of Engineering.\n            You have access to college documents, course materials, policies, and procedures.\n            Answer questions accurately based on the provided context. If you don\x27t have enough information, say so.\n            Be helpful, concise, and student-friendly. Be very flexible and elaborate on your answers and do not just retrieve data from the context.\n        "

/-- The system prompt of `_stream_groq` (exact source literal). -/
def systemPromptStream : Str := str "\n            You are RizviGPT, an AI assistant with deep knowledge about the Rizvi College Of Engineering.\n            You have access to college documents, course materials, policies, and procedures.\n            Answer questions accurately based on the provided context. If you don\x27t have enough information, say so.\n            Be helpful, concise, and student-friendly.\n        "

/-- The label prepended to the context inside the system prompt. -/
def contextLabelGroq : Str := str "\n\nRelevant context from college documents:\n"

/-- The system message content: the base persona prompt, with the context
appended when truthy. -/
def groqSystemContent (base : Str) (context : Option Str) : Str :=
  if optTruthy context then base ++ contextLabelGroq ++ context.getD [] else base

/-- The `messages` list built by `_generate_groq` / `_stream_groq` (the two
differ only in the base system prompt, passed as `base`): one system
message, the last 5 history turns verbatim when history is truthy, and one
user message holding the query. -/
def groqMessages (base : Str) (query : Str) (context : Option Str) (chat_history : List Msg) : List Msg :=
  [⟨some (str "system"), some (groqSystemContent base context)⟩]
  ++ (if chat_history.isEmpty then []
      else chat_history.drop (chat_history.length - 5))
  ++ [⟨some (str "user"), some query⟩]

/-- Translation of `_generate_groq`: send the built messages, return the first completion's
content verbatim. -/
def generate_groq (api : List Msg → Str) (query : Str) (context : Option Str)
    (chat_history : List Msg) : Str :=
  api (groqMessages systemPromptSync query context chat_history)

/-- Translation of `_stream_groq`: send the built messages, yield every delta whose content
is truthy (`if chunk.choices[0].delta.content:`). -/
def stream_groq (apiStream : List Msg → List Str) (query : Str) (context : Option Str)
    (chat_history : List Msg) : List Str :=
  (apiStream (groqMessages systemPromptStream query context chat_history)).filter
    (fun d => !d.isEmpty)

/-! ## Local generation path (`_generate_local`)

The HuggingFace pipeline is the oracle `gen : Str → Str`, returning
`outputs[0]["generated_text"]` for a prompt (sampling parameters are fixed
in the source and folded into the oracle). -/

/-- Translation of `_generate_local`: build the local prompt, run the generator, strip the
echoed prompt prefix (`generated_text[len(prompt):].strip()`), and clean. -/
def generate_local (gen : Str → Str) (query : Str) (context : Option Str)
    (chat_history : List Msg) : Str :=
  let prompt := build_local_prompt query context chat_history
  let generated_text := gen prompt
  let response := pyStrip (generated_text.drop prompt.length)
  clean_response response

/-! ## Public generation contract -/

/-- Translation of `generate_response`: dispatch on the active backend. -/
def generate_response (svc : LLMService) (gen : Str → Str) (api : List Msg → Str)
    (query : Str) (context : Option Str) (chat_history : List Msg) : Str :=
  if svc.use_local_model then generate_local gen query context chat_history
  else generate_groq api query context chat_history

/-- The simulated local stream: `words = response.split()`, then
`yield word + (" " if i < len(words) - 1 else "")` for each `i, word` in
`enumerate(words)`. -/
def wordChunks (response : Str) : List Str :=
  let words := pySplitWs response
  words.enum.map (fun iw => iw.2 ++ (if iw.1 < words.length - 1 then [' '] else []))

/-- Translation of `generate_streaming_response`: the local backend generates the full
synchronous response first and re-emits it word by word; the remote backend
streams deltas. -/
def generate_streaming_response (svc : LLMService) (gen : Str → Str)
    (apiStream : List Msg → List Str) (query : Str) (context : Option Str)
    (chat_history : List Msg) : List Str :=
  if svc.use_local_model then
    wordChunks (generate_local gen query context chat_history)
  else
    stream_groq apiStream query context chat_history

/-! ## Factory (`create_llm_service`)

The environment is the record of the three variables the factory and the
initializers read (`None` = unset), and the filesystem is the oracle
`fs : Str → Bool` modelling `os.path.exists`. -/

/-- The configuration surface read through `os.getenv`. -/
structure Env where
  use_local_model_var : Option Str
  local_model_path_var : Option Str

/-- Translation of `os.getenv(name, default)`: the default applies only when the variable
is unset. -/
def getenvD (v : Option Str) (d : Str) : Str := v.getD d

/-- Translation of `_init_local_model`: resolve the path (falsy argument falls back to the
environment variable with its default), fail with `ValueError` when the
path does not exist, otherwise record the local backend.  Device detection
and weight loading are opaque resource acquisition. -/
def init_local_model (env : Env) (fs : Str → Bool) (model_path : Option Str) :
    Except Str LLMService :=
  let mp :=
    match model_path with
    | none => getenvD env.local_model_path_var (str "./trained_model/final_model")
    | some p =>
      if p.isEmpty then getenvD env.local_model_path_var (str "./trained_model/final_model")
      else p
  if fs mp then Except.ok ⟨true, none, some mp⟩
  else Except.error (str "Local model not found at " ++ mp)

/-- Translation of `_init_groq`: record the remote backend with its fixed model id. -/
def init_groq : LLMService := ⟨false, some (str "llama-3.1-8b-instant"), none⟩

/-- Translation of `LLMService.__init__`: dispatch on the `use_local_model` flag. -/
def mkLLMService (env : Env) (fs : Str → Bool) (use_local : Bool) (path : Option Str) :
    Except Str LLMService :=
  if use_local then init_local_model env fs path else Except.ok init_groq

/-- Translation of `create_llm_service`: read the configuration, try to build the requested
service, and fall back to `LLMService(use_local_model=False)` on any
initialization failure. -/
def create_llm_service (env : Env) (fs : Str → Bool) : LLMService :=
  let use_local := pyLower (getenvD env.use_local_model_var (str "false")) == str "true"
  let lmp := getenvD env.local_model_path_var (str "./trained_model/final_model")
  match mkLLMService env fs use_local (if use_local then some lmp else none) with
  | Except.ok s => s
  | Except.error _ => init_groq

/-! ## Comparison definitions and concrete test inputs -/

/-- The cleaning algorithm exactly as claim C3 words it: (1) truncate at the
first `"Question:"`, (2) remove every `"Answer:"` label (no trimming
mentioned at this step), (3) paragraph rule on that result, (4) final trim.
This follows the claim's wording, to be compared with `clean_response`,
which is translated from the source. -/
def clean_response_claimed (response : Str) : Str :=
  let r1 := if pyContains response qLabel then takeUntil qLabel response else response
  let r2 := removeAll 'A' (str "nswer:") r1
  let paragraphs := pySplitOn '\n' (str "\n") r2
  let r3 := if 1 < paragraphs.length ∧ 500 < r2.length then paragraphs.headD [] else r2
  pyStrip r3

/-- The cleaning algorithm as claim C3 amended: identical to the claimed
step list except that step (2) also trims surrounding whitespace after
removing the `"Answer:"` labels (as `replace(...).strip()` does in the
source), so step (3)'s 500-character test reads the trimmed length. -/
def clean_response_amended (response : Str) : Str :=
  let r1 := if pyContains response qLabel then takeUntil qLabel response else response
  let r2 := pyStrip (removeAll 'A' (str "nswer:") r1)
  let paragraphs := pySplitOn '\n' (str "\n") r2
  let r3 := if 1 < paragraphs.length ∧ 500 < r2.length then paragraphs.headD [] else r2
  pyStrip r3

/-- Padding counterexample: 501 spaces followed by a two-paragraph text of 4 characters: total
length 505 before trimming, 4 after. -/
def cexPadded : Str := List.replicate 501 ' ' ++ str "a\n\nb"

/-- A 600-character two-paragraph response with no label artifacts. -/
def sixHundredTwoPara : Str := List.replicate 300 'x' ++ str "\n\n" ++ List.replicate 298 'y'

/-- An input on which removing `"Answer:"` manufactures a `"Question:"`. -/
def cexSplice : Str := str "QuestAnswer:ion: hi"

/-- Every word carries a trailing space except the last (the meaning of the
`enumerate` loop of the local simulated stream). -/
def addSpaces : List Str → List Str
  | [] => []
  | [w] => [w]
  | w :: y :: t => (w ++ [' ']) :: addSpaces (y :: t)

/-- A service instance in local mode (fields as `_init_local_model` sets
them for an existing path). -/
def svcLocalTest : LLMService := ⟨true, none, some (str "./trained_model/final_model")⟩

/-- A local generator oracle that echoes the prompt and appends a reply
containing a newline. -/
def genNewline : Str → Str := fun p => p ++ str "a\nb"

/-- A local generator oracle that echoes the prompt and appends a 3-word
reply. -/
def genThreeWords : Str → Str := fun p => p ++ str "It opens soon"

/-- A trivial remote completion oracle. -/
def api0 : List Msg → Str := fun _ => []

/-- A trivial remote streaming oracle. -/
def apiStream0 : List Msg → List Str := fun _ => []

/-- A 6-turn chat history, longer than both truncation bounds. -/
def hist6 : List Msg := List.replicate 6 ⟨none, none⟩

/-- The context of the spec's remote-prompt scenario. -/
def libCtx : Str := str "Library hours: 9am-5pm."

/-- The query of the spec's remote-prompt scenario. -/
def libQuery : Str := str "When does the library open?"

/-! ## Helper lemmas on the string primitives -/

theorem isPrefixOf_eq_true_iff (l m : Str) : l.isPrefixOf m = true ↔ l <+: m := by
  simp

theorem reverse_pre_of_suf {d l : Str} (h : d <:+ l) : d.reverse <+: l.reverse := by
  obtain ⟨t, ht⟩ := h
  exact ⟨t.reverse, by rw [← List.reverse_append, ht]⟩

theorem infix_of_pre {a b : Str} (h : a <+: b) : a <:+: b := by
  obtain ⟨t, ht⟩ := h
  exact ⟨[], t, by simpa using ht⟩

theorem infix_of_suf {a b : Str} (h : a <:+ b) : a <:+: b := by
  obtain ⟨t, ht⟩ := h
  exact ⟨t, [], by simpa using ht⟩

theorem pyContains_eq_true_iff (s pat : Str) : pyContains s pat = true ↔ pat <:+: s := by
  induction s with
  | nil => simp [pyContains]
  | cons c cs ih =>
    simp [pyContains, List.infix_cons_iff, ih]

theorem not_contains_mono {x y pat : Str} (h : pyContains x pat = false) (hyx : y <:+: x) :
    pyContains y pat = false := by
  cases hb : pyContains y pat with
  | false => rfl
  | true =>
    rw [pyContains_eq_true_iff] at hb
    have : pyContains x pat = true := (pyContains_eq_true_iff x pat).mpr (hb.trans hyx)
    rw [this] at h
    exact absurd h (by simp)

theorem removeAll_of_not_contains {p : Char} {ps : Str} {s : Str}
    (h : pyContains s (p :: ps) = false) : removeAll p ps s = s := by
  induction s with
  | nil => rfl
  | cons c cs ih =>
    rw [pyContains, Bool.or_eq_false_iff] at h
    show removeAllAux p ps (c :: cs) 0 = c :: cs
    rw [removeAllAux, if_neg (by simp [h.1])]
    exact congrArg (c :: ·) (ih h.2)

theorem pySplitOnAux_ne_nil (p : Char) (ps : Str) (s : Str) :
    ∀ k : Nat, pySplitOnAux p ps s k ≠ [] := by
  induction s with
  | nil => intro k; simp [pySplitOnAux]
  | cons c cs ih =>
    intro k
    cases k with
    | succ k => rw [pySplitOnAux]; exact ih k
    | zero =>
      rw [pySplitOnAux]
      split
      · simp
      · split <;> simp

theorem pySplitOn_ne_nil (p : Char) (ps : Str) (s : Str) : pySplitOn p ps s ≠ [] :=
  pySplitOnAux_ne_nil p ps s 0

theorem pySplitOn_of_not_contains {p : Char} {ps : Str} {s : Str}
    (h : pyContains s (p :: ps) = false) : pySplitOn p ps s = [s] := by
  induction s with
  | nil => rfl
  | cons c cs ih =>
    rw [pyContains, Bool.or_eq_false_iff] at h
    show pySplitOnAux p ps (c :: cs) 0 = [c :: cs]
    rw [pySplitOnAux, if_neg (by simp [h.1])]
    have hcs : pySplitOnAux p ps cs 0 = [cs] := ih h.2
    rw [hcs]

theorem pySplitOn_head_prefix_self (p : Char) (ps : Str) (s : Str) :
    (pySplitOn p ps s).headD [] <+: s := by
  induction s with
  | nil => simp [pySplitOn, pySplitOnAux]
  | cons c cs ih =>
    show (pySplitOnAux p ps (c :: cs) 0).headD [] <+: c :: cs
    rw [pySplitOnAux]
    split
    · simp
    · simp only [pySplitOn] at ih
      cases hrec : pySplitOnAux p ps cs 0 with
      | nil => exact absurd hrec (pySplitOnAux_ne_nil p ps cs 0)
      | cons w ws =>
        rw [hrec] at ih
        show (c :: w) <+: c :: cs
        exact List.cons_prefix_cons.mpr ⟨rfl, by simpa using ih⟩

theorem pySplitOn_head_not_contains (p : Char) (ps : Str) (s : Str) :
    pyContains ((pySplitOn p ps s).headD []) (p :: ps) = false := by
  induction s with
  | nil => rfl
  | cons c cs ih =>
    show pyContains ((pySplitOnAux p ps (c :: cs) 0).headD []) (p :: ps) = false
    rw [pySplitOnAux]
    split
    · rfl
    · rename_i hnp
      simp only [pySplitOn] at ih
      cases hrec : pySplitOnAux p ps cs 0 with
      | nil => exact absurd hrec (pySplitOnAux_ne_nil p ps cs 0)
      | cons w ws =>
        rw [hrec] at ih
        have ih' : pyContains w (p :: ps) = false := by simpa using ih
        show pyContains (c :: w) (p :: ps) = false
        rw [pyContains, Bool.or_eq_false_iff]
        refine ⟨?_, ih'⟩
        cases hb : (p :: ps).isPrefixOf (c :: w) with
        | false => rfl
        | true =>
          rw [isPrefixOf_eq_true_iff] at hb
          have hw : w <+: cs := by
            have hp := pySplitOn_head_prefix_self p ps cs
            simp only [pySplitOn] at hp
            rw [hrec] at hp
            simpa using hp
          have hpre : (p :: ps) <+: (c :: cs) :=
            hb.trans (List.cons_prefix_cons.mpr ⟨rfl, hw⟩)
          rw [← isPrefixOf_eq_true_iff] at hpre
          exact absurd hpre hnp

theorem dropWhile_dropWhile (p : Char → Bool) (l : Str) :
    (l.dropWhile p).dropWhile p = l.dropWhile p := by
  induction l with
  | nil => rfl
  | cons c cs ih =>
    rw [List.dropWhile_cons]
    split
    · exact ih
    · rename_i hc
      rw [List.dropWhile_cons, if_neg hc]

theorem dropWhile_eq_self_of_pre {p : Char → Bool} {l m : Str}
    (hl : l.dropWhile p = l) (hm : m <+: l) : m.dropWhile p = m := by
  cases m with
  | nil => rfl
  | cons a t =>
    cases l with
    | nil => simp at hm
    | cons b u =>
      rw [List.cons_prefix_cons] at hm
      obtain ⟨rfl, htu⟩ := hm
      rw [List.dropWhile_cons] at hl ⊢
      split at hl
      · have hle : (u.dropWhile p).length ≤ u.length :=
          (List.dropWhile_suffix p).sublist.length_le
        rw [hl] at hle
        simp at hle
      · rename_i hc
        rw [if_neg hc]

theorem stripEnd_prefix_self (s : Str) : stripEnd s <+: s := by
  have h : (s.reverse.dropWhile isPySpace) <:+ s.reverse := List.dropWhile_suffix _
  have h2 := reverse_pre_of_suf h
  rwa [List.reverse_reverse] at h2

theorem pyStrip_infix_self (s : Str) : pyStrip s <:+: s := by
  have h1 : stripEnd (s.dropWhile isPySpace) <+: s.dropWhile isPySpace := stripEnd_prefix_self _
  have h2 : s.dropWhile isPySpace <:+ s := List.dropWhile_suffix _
  exact (infix_of_pre h1).trans (infix_of_suf h2)

theorem stripEnd_stripEnd (s : Str) : stripEnd (stripEnd s) = stripEnd s := by
  simp only [stripEnd, List.reverse_reverse, dropWhile_dropWhile]

theorem pyStrip_pyStrip (s : Str) : pyStrip (pyStrip s) = pyStrip s := by
  simp only [pyStrip]
  rw [dropWhile_eq_self_of_pre (dropWhile_dropWhile isPySpace s) (stripEnd_prefix_self _),
    stripEnd_stripEnd]

/-! ## Streaming lemmas -/

theorem enumFrom_addSpaces (ws : List Str) : ∀ (k n : Nat), n = k + ws.length - 1 →
    (ws.enumFrom k).map (fun iw => iw.2 ++ (if iw.1 < n then [' '] else [])) = addSpaces ws := by
  induction ws with
  | nil => intro k n h; rfl
  | cons w t ih =>
    intro k n h
    cases t with
    | nil =>
      simp only [List.enumFrom_cons, List.enumFrom, List.map_cons, List.map_nil]
      rw [if_neg (by simp at h; omega)]
      simp [addSpaces]
    | cons y t' =>
      rw [List.enumFrom_cons, List.map_cons]
      rw [if_pos (by simp at h; omega)]
      rw [ih (k + 1) n (by simp at h ⊢; omega)]
      rfl

theorem wordChunks_eq_addSpaces (r : Str) : wordChunks r = addSpaces (pySplitWs r) := by
  simp only [wordChunks]
  exact enumFrom_addSpaces (pySplitWs r) 0 ((pySplitWs r).length - 1) (by omega)

theorem addSpaces_flatten (ws : List Str) : (addSpaces ws).flatten = joinSep [' '] ws := by
  induction ws with
  | nil => rfl
  | cons w t ih =>
    cases t with
    | nil => simp [addSpaces, joinSep]
    | cons y t' =>
      rw [addSpaces, List.flatten_cons, ih]
      rw [joinSep]

theorem flatten_filter_nonempty (l : List Str) :
    (l.filter (fun d => !d.isEmpty)).flatten = l.flatten := by
  induction l with
  | nil => rfl
  | cons d t ih =>
    rw [List.filter_cons]
    by_cases hd : d.isEmpty
    · have hnil : d = [] := by simpa using hd
      simp [hd, hnil, ih]
    · simp [hd, ih]

/-! ## Structure of cleaned responses -/

theorem pyStrip_clean_response (s : Str) : pyStrip (clean_response s) = clean_response s := by
  simp only [clean_response]
  exact pyStrip_pyStrip _

theorem clean_response_no_long_para (s : Str) :
    ¬ (1 < (pySplitOn '\n' (str "\n") (clean_response s)).length ∧
        500 < (clean_response s).length) := by
  simp only [clean_response]
  set r2 := pyStrip (removeAll 'A' (str "nswer:")
    (if pyContains s qLabel = true then takeUntil qLabel s else s)) with hr2
  by_cases hcond : 1 < (pySplitOn '\n' (str "\n") r2).length ∧ 500 < r2.length
  · rw [if_pos hcond]
    rintro ⟨hlen, -⟩
    have hnc : pyContains ((pySplitOn '\n' (str "\n") r2).headD []) ('\n' :: str "\n") = false :=
      pySplitOn_head_not_contains '\n' (str "\n") r2
    have hmono : pyContains (pyStrip ((pySplitOn '\n' (str "\n") r2).headD []))
        ('\n' :: str "\n") = false :=
      not_contains_mono hnc (pyStrip_infix_self _)
    rw [pySplitOn_of_not_contains hmono] at hlen
    simp at hlen
  · rw [if_neg hcond]
    have hs : pyStrip r2 = r2 := by rw [hr2]; exact pyStrip_pyStrip _
    rw [hs]
    exact hcond

/-- C6: the response cleaner is NOT idempotent as claimed: on
`"QuestAnswer:ion: hi"` the cleaner yields `"Question: hi"` (removing
`"Answer:"` manufactures a `"Question:"` label), and cleaning that again
truncates it to the empty string. -/
theorem C6_counterexample :
    clean_response cexSplice = str "Question: hi" ∧
    clean_response (clean_response cexSplice) ≠ clean_response cexSplice := by
  constructor
  · decide
  · decide

/-- C6 (amended): the cleaner is idempotent on every input whose cleaned
output contains neither the `"Question:"` nor the `"Answer:"` label:
applying `_clean_response` to such already-cleaned text returns it
unchanged, with no further truncation. -/
theorem C6_clean_response_idem (s : Str)
    (hq : pyContains (clean_response s) qLabel = false)
    (ha : pyContains (clean_response s) aLabel = false) :
    clean_response (clean_response s) = clean_response s := by
  have hstrip : pyStrip (clean_response s) = clean_response s := pyStrip_clean_response s
  have hpar := clean_response_no_long_para s
  have ha' : pyContains (clean_response s) ('A' :: str "nswer:") = false := ha
  set r := clean_response s with hr
  simp only [clean_response]
  have e1 : (if pyContains r qLabel = true then takeUntil qLabel r else r) = r :=
    if_neg (by simp [hq])
  rw [e1, removeAll_of_not_contains ha', hstrip, if_neg hpar]
  exact hstrip

/-- C1: the streaming concatenation law fails for the local backend.  The
local stream splits the synchronous response on whitespace and re-joins
the words with single spaces, so a response containing a newline is not
reproduced: for the generator that answers `"a\nb"`, the concatenated
stream is `"a b"` while the synchronous response is `"a\nb"`. -/
theorem C1_counterexample :
    (generate_streaming_response svcLocalTest genNewline apiStream0 (str "q") none []).flatten ≠
      generate_response svcLocalTest genNewline api0 (str "q") none [] := by
  decide

/-- C1 (amended): for the remote backend, if the same sampled output is
delivered both ways (the synchronous content equals the concatenation of
the stream's deltas for the respective built message lists), then the
concatenation of all streamed fragments equals the synchronous response.
For the local backend, the concatenation of all streamed fragments equals
the synchronous response with its whitespace normalized: the single-space
join of its whitespace-split words (so equality with the synchronous
response holds exactly when that response contains no whitespace other
than single interior spaces). -/
theorem C1_stream_concat (svc : LLMService) (gen : Str → Str) (api : List Msg → Str)
    (apiStream : List Msg → List Str) (query : Str) (context : Option Str)
    (chat_history : List Msg) :
    (svc.use_local_model = false →
      api (groqMessages systemPromptSync query context chat_history) =
        (apiStream (groqMessages systemPromptStream query context chat_history)).flatten →
      (generate_streaming_response svc gen apiStream query context chat_history).flatten =
        generate_response svc gen api query context chat_history) ∧
    (svc.use_local_model = true →
      (generate_streaming_response svc gen apiStream query context chat_history).flatten =
        joinSep [' '] (pySplitWs (generate_response svc gen api query context chat_history))) := by
  constructor
  · intro hmode hsame
    rw [generate_streaming_response, generate_response,
      if_neg (by simp [hmode]), if_neg (by simp [hmode])]
    rw [stream_groq, generate_groq, flatten_filter_nonempty, ← hsame]
  · intro hmode
    rw [generate_streaming_response, generate_response,
      if_pos (by simp [hmode]), if_pos (by simp [hmode])]
    rw [wordChunks_eq_addSpaces, addSpaces_flatten]

/-- C1 witness: the amended law applied to a concrete remote service with a
matching sampled output, and to a concrete local service. -/
theorem C1_witness :
    (generate_streaming_response init_groq genNewline (fun _ => [str "ok"])
        (str "q") none []).flatten =
      generate_response init_groq genNewline (fun _ => str "ok") (str "q") none [] ∧
    (generate_streaming_response svcLocalTest genNewline apiStream0 (str "q") none []).flatten =
      joinSep [' '] (pySplitWs (generate_response svcLocalTest genNewline api0 (str "q") none [])) :=
  ⟨(C1_stream_concat init_groq genNewline (fun _ => str "ok") (fun _ => [str "ok"])
      (str "q") none []).1 rfl (by decide),
   (C1_stream_concat svcLocalTest genNewline api0 apiStream0 (str "q") none []).2 rfl⟩

/-- C3: the claim's step list is not exactly what `_clean_response`
computes: the code trims the text right after removing the `"Answer:"`
labels, before the 500-character test, while the claim trims only at the
end.  On 501 spaces followed by `"a\n\nb"` the claimed algorithm sees
length 505 > 500 and keeps only the first paragraph (`"a"`), while the
code trims first (length 4) and keeps both paragraphs (`"a\n\nb"`). -/
theorem C3_counterexample :
    clean_response cexPadded = str "a\n\nb" ∧
    clean_response_claimed cexPadded = str "a" ∧
    clean_response cexPadded ≠ clean_response_claimed cexPadded := by
  refine ⟨by decide, by decide, by decide⟩

/-- C3 (amended): `_clean_response` computes exactly: (1) truncate at the
first `"Question:"` when present; (2) remove every `"Answer:"` label and
trim surrounding whitespace; (3) if that trimmed text contains a
blank-line paragraph break and its length exceeds 500, keep only the first
paragraph; (4) final trim.  In particular it maps
`"It opens at 9am.\n\nQuestion: Anything else?"` to `"It opens at 9am."`,
and maps the 600-character two-paragraph label-free input
`sixHundredTwoPara` to its first paragraph only. -/
theorem C3_clean_steps :
    (∀ s, clean_response s = clean_response_amended s) ∧
    clean_response (str "It opens at 9am.\n\nQuestion: Anything else?") = str "It opens at 9am." ∧
    clean_response sixHundredTwoPara = List.replicate 300 'x' := by
  refine ⟨fun s => rfl, by decide, by decide⟩

/-- C2: whenever the configuration requests local mode but the resolved
local model path does not exist, `create_llm_service` returns the remote
(Groq) service.  No exception escapes: the model of the factory is a total
function — the `ValueError` of `_init_local_model` is caught by the
factory's catch-all handler, which builds `LLMService(use_local_model=False)`. -/
theorem C2_fallback (env : Env) (fs : Str → Bool)
    (hlocal : pyLower (getenvD env.use_local_model_var (str "false")) = str "true")
    (hpath : fs (getenvD env.local_model_path_var (str "./trained_model/final_model")) = false) :
    create_llm_service env fs = init_groq ∧
    (create_llm_service env fs).use_local_model = false := by
  have hb : (pyLower (getenvD env.use_local_model_var (str "false")) == str "true") = true := by
    rw [hlocal]; exact beq_self_eq_true _
  have hmain : create_llm_service env fs = init_groq := by
    simp only [create_llm_service, hb, if_true, mkLLMService, init_local_model]
    by_cases he : (getenvD env.local_model_path_var (str "./trained_model/final_model")).isEmpty
    · rw [if_pos he, hpath]; simp
    · rw [if_neg he, hpath]; simp
  exact ⟨hmain, by rw [hmain]; rfl⟩

/-- C2 witness: local mode requested (case-insensitively) with a filesystem
on which no path exists. -/
theorem C2_witness :
    create_llm_service ⟨some (str "TRUE"), none⟩ (fun _ => false) = init_groq ∧
    (create_llm_service ⟨some (str "TRUE"), none⟩ (fun _ => false)).use_local_model = false :=
  C2_fallback ⟨some (str "TRUE"), none⟩ (fun _ => false) (by decide) rfl

theorem joinSep_append_pair (sep : Str) (l : List Str) (a b : Str) :
    ∃ pre, joinSep sep (l ++ [a, b]) = pre ++ (a ++ sep ++ b) := by
  induction l with
  | nil => exact ⟨[], rfl⟩
  | cons x l ih =>
    cases l with
    | nil => exact ⟨x ++ sep, rfl⟩
    | cons z l' =>
      obtain ⟨pre', hp⟩ := ih
      rw [List.cons_append] at hp
      refine ⟨x ++ sep ++ pre', ?_⟩
      rw [List.cons_append]
      show x ++ sep ++ joinSep sep (z :: (l' ++ [a, b])) = x ++ sep ++ pre' ++ (a ++ sep ++ b)
      rw [hp]
      simp [List.append_assoc]

/-- C4: chat histories longer than the truncation bound are cut to exactly
the last N turns, kept verbatim in their original order (a suffix of the
history): N = 5 in the remote message list, N = 3 among the rendered
history lines of the local prompt. -/
theorem C4_history_truncation (base query : Str) (context : Option Str) (h : List Msg) :
    (5 < h.length →
      groqMessages base query context h =
        [⟨some (str "system"), some (groqSystemContent base context)⟩] ++
          h.drop (h.length - 5) ++ [⟨some (str "user"), some query⟩] ∧
      (h.drop (h.length - 5)).length = 5 ∧ h.drop (h.length - 5) <:+ h) ∧
    (3 < h.length →
      localPromptParts query context h =
        (if optTruthy context then
          [str "Context from college documents:", context.getD [], []] else []) ++
          (h.drop (h.length - 3)).map renderTurn ++
          [str "Question: " ++ query, str "Answer:"] ∧
      (h.drop (h.length - 3)).length = 3 ∧ h.drop (h.length - 3) <:+ h) := by
  constructor
  · intro h5
    have hne : ¬(h.isEmpty = true) := by
      simp only [List.isEmpty_eq_true]
      intro e
      rw [e] at h5
      simp at h5
    refine ⟨?_, ?_, List.drop_suffix _ _⟩
    · rw [groqMessages, if_neg hne]
    · rw [List.length_drop]; omega
  · intro h3
    have hne : ¬(h.isEmpty = true) := by
      simp only [List.isEmpty_eq_true]
      intro e
      rw [e] at h3
      simp at h3
    refine ⟨?_, ?_, List.drop_suffix _ _⟩
    · rw [localPromptParts, if_neg hne]
    · rw [List.length_drop]; omega

/-- C4 witness: a 6-turn history, longer than both bounds. -/
theorem C4_witness :
    groqMessages systemPromptSync (str "q") none hist6 =
      [⟨some (str "system"), some (groqSystemContent systemPromptSync none)⟩] ++
        hist6.drop (hist6.length - 5) ++ [⟨some (str "user"), some (str "q")⟩] ∧
    (hist6.drop (hist6.length - 5)).length = 5 ∧
    (hist6.drop (hist6.length - 3)).length = 3 :=
  ⟨((C4_history_truncation systemPromptSync (str "q") none hist6).1 (by decide)).1,
   ((C4_history_truncation systemPromptSync (str "q") none hist6).1 (by decide)).2.1,
   ((C4_history_truncation systemPromptSync (str "q") none hist6).2 (by decide)).2.1⟩

/-- C5: the local prompt is the newline-join of exactly: the context block
(label line, context text, blank line) when context is present (truthy);
then the last 3 history turns rendered by `renderTurn`; then
`"Question: <query>"`; then the final `"Answer:"` cue — so every built
local prompt ends with the current query as a question followed by the
answer cue. -/
theorem C5_local_prompt_shape (query : Str) (context : Option Str) (h : List Msg) :
    build_local_prompt query context h =
      joinSep (str "\n")
        ((if optTruthy context then
            [str "Context from college documents:", context.getD [], []] else []) ++
          (if h.isEmpty then [] else (h.drop (h.length - 3)).map renderTurn) ++
          [str "Question: " ++ query, str "Answer:"]) ∧
    ∃ pre, build_local_prompt query context h =
      pre ++ (str "Question: " ++ query ++ str "\n" ++ str "Answer:") := by
  constructor
  · rfl
  · obtain ⟨pre, hp⟩ := joinSep_append_pair (str "\n")
      ((if optTruthy context then
          [str "Context from college documents:", context.getD [], []] else []) ++
        (if h.isEmpty then [] else (h.drop (h.length - 3)).map renderTurn))
      (str "Question: " ++ query) (str "Answer:")
    refine ⟨pre, ?_⟩
    rw [build_local_prompt, localPromptParts, ← List.append_assoc, hp]
    simp [List.append_assoc]

/-- C7: the remote synchronous path sends exactly one system message (the
persona prompt, with the context appended verbatim when present), the last
5 history turns verbatim, and one user message equal to the query, and
returns the completion oracle's answer for exactly that message list
verbatim (no post-processing). -/
theorem C7_remote_messages (api : List Msg → Str) (query : Str) (context : Option Str)
    (h : List Msg) :
    generate_groq api query context h = api (groqMessages systemPromptSync query context h) ∧
    groqMessages systemPromptSync query context h =
      [⟨some (str "system"), some (groqSystemContent systemPromptSync context)⟩] ++
        h.drop (h.length - 5) ++ [⟨some (str "user"), some query⟩] ∧
    (∀ ctext : Str, context = some ctext → ctext.isEmpty = false →
      pyContains (groqSystemContent systemPromptSync context) ctext = true) := by
  refine ⟨rfl, ?_, ?_⟩
  · rw [groqMessages]
    cases h with
    | nil => rfl
    | cons m t => rfl
  · intro ctext hc hne
    subst hc
    rw [groqSystemContent, if_pos (by simp [optTruthy, hne])]
    rw [pyContains_eq_true_iff]
    exact ⟨systemPromptSync ++ contextLabelGroq, [], by simp [List.append_assoc]⟩

/-- C7 witness: the spec's library scenario — the system message contains
the context verbatim; the message list is the system message followed
directly by the user message holding the query. -/
theorem C7_witness :
    pyContains (groqSystemContent systemPromptSync (some libCtx)) libCtx = true ∧
    groqMessages systemPromptSync libQuery (some libCtx) [] =
      [⟨some (str "system"), some (groqSystemContent systemPromptSync (some libCtx))⟩,
       ⟨some (str "user"), some libQuery⟩] :=
  ⟨(C7_remote_messages api0 libQuery (some libCtx) []).2.2 libCtx rfl (by decide),
   by have h2 := (C7_remote_messages api0 libQuery (some libCtx) []).2.1; simpa using h2⟩

/-- C8: in local mode the streaming operation is the word-chunking of the
full synchronous response: the response is computed first (local path with
cleanup), split on whitespace, and emitted word by word, each fragment
carrying a trailing space except the last; the 3-word response
`"It opens soon"` chunks to `["It ", "opens ", "soon"]`. -/
theorem C8_local_stream (svc : LLMService) (gen : Str → Str) (api : List Msg → Str)
    (apiStream : List Msg → List Str) (query : Str) (context : Option Str) (h : List Msg)
    (hmode : svc.use_local_model = true) :
    generate_streaming_response svc gen apiStream query context h =
      wordChunks (generate_response svc gen api query context h) ∧
    wordChunks (generate_response svc gen api query context h) =
      addSpaces (pySplitWs (generate_response svc gen api query context h)) ∧
    wordChunks (str "It opens soon") = [str "It ", str "opens ", str "soon"] := by
  refine ⟨?_, wordChunks_eq_addSpaces _, by decide⟩
  rw [generate_streaming_response, generate_response,
    if_pos (by simp [hmode]), if_pos (by simp [hmode])]

/-- C8 witness: a local service whose generator answers `"It opens soon"`
streams exactly the three fragments. -/
theorem C8_witness :
    generate_streaming_response svcLocalTest genThreeWords apiStream0 (str "q") none [] =
      wordChunks (generate_response svcLocalTest genThreeWords api0 (str "q") none []) ∧
    generate_streaming_response svcLocalTest genThreeWords apiStream0 (str "q") none [] =
      [str "It ", str "opens ", str "soon"] := by
  have hc := C8_local_stream svcLocalTest genThreeWords api0 apiStream0 (str "q") none [] rfl
  exact ⟨hc.1, by rw [hc.1]; decide⟩

/-- C9: the local prompt builder is deterministic — it is a pure function
of its arguments, so two calls with equal query, context and history
produce byte-identical prompts. -/
theorem C9_deterministic (q1 q2 : Str) (c1 c2 : Option Str) (h1 h2 : List Msg)
    (hq : q1 = q2) (hc : c1 = c2) (hh : h1 = h2) :
    build_local_prompt q1 c1 h1 = build_local_prompt q2 c2 h2 := by
  subst hq; subst hc; subst hh; rfl

/-- C9 witness: determinism at a concrete input. -/
theorem C9_witness :
    build_local_prompt (str "q") (some (str "ctx")) hist6 =
      build_local_prompt (str "q") (some (str "ctx")) hist6 :=
  C9_deterministic (str "q") (str "q") (some (str "ctx")) (some (str "ctx")) hist6 hist6
    rfl rfl rfl

/-- C10: a history turn is rendered as a `"Question: "` line exactly when
its role is the string `"user"` or the role key is absent (the absent role
defaults to `"user"`); every other role renders as an `"Answer: "` line;
an absent content key renders like the empty string. -/
theorem C10_render_rule (m : Msg) :
    (renderTurn m = str "Question: " ++ m.content.getD [] ↔
      (m.role = some (str "user") ∨ m.role = none)) ∧
    ((m.role ≠ some (str "user") ∧ m.role ≠ none) →
      renderTurn m = str "Answer: " ++ m.content.getD []) ∧
    (m.content = none → renderTurn m = renderTurn ⟨m.role, some []⟩) := by
  have hQA : ∀ x y : Str, str "Answer: " ++ x ≠ str "Question: " ++ y := by
    intro x y heq
    have h1 : str "Answer: " ++ x = 'A' :: (str "nswer: " ++ x) := rfl
    have h2 : str "Question: " ++ y = 'Q' :: (str "uestion: " ++ y) := rfl
    rw [h1, h2] at heq
    injection heq with hch _
    exact absurd hch (by decide)
  obtain ⟨mr, mc⟩ := m
  refine ⟨⟨?_, ?_⟩, ?_, ?_⟩
  · intro hq
    cases mr with
    | none => exact Or.inr rfl
    | some r =>
      by_cases hr : r = str "user"
      · exact Or.inl (by rw [hr])
      · exfalso
        have ha : renderTurn ⟨some r, mc⟩ = str "Answer: " ++ mc.getD [] := by
          simp [renderTurn, hr]
        rw [ha] at hq
        exact hQA _ _ hq
  · rintro (hu | hu) <;> rw [show Msg.role ⟨mr, mc⟩ = mr from rfl] at hu <;> subst hu <;>
      simp [renderTurn]
  · rintro ⟨h1, h2⟩
    cases mr with
    | none => exact absurd rfl h2
    | some r =>
      have hr : r ≠ str "user" := by
        intro e
        exact h1 (by rw [e])
      simp [renderTurn, hr]
  · intro hc
    rw [show Msg.content ⟨mr, mc⟩ = mc from rfl] at hc
    subst hc
    rfl

/-- C10 witness: an `"assistant"` turn renders as an answer line; a turn
with both keys absent renders as a question line with empty content. -/
theorem C10_witness :
    renderTurn ⟨some (str "assistant"), some (str "ok")⟩ = str "Answer: " ++ str "ok" ∧
    renderTurn ⟨none, none⟩ = str "Question: " := by
  constructor
  · exact (C10_render_rule ⟨some (str "assistant"), some (str "ok")⟩).2.1
      ⟨by decide, by decide⟩
  · have hm := (C10_render_rule ⟨none, none⟩).1.mpr (Or.inr rfl)
    simpa using hm

/-- C6 witness: a concrete already-clean input on which the amended
idempotence theorem applies. -/
theorem C6_witness :
    clean_response (clean_response (str "The library opens at 9am.")) =
      clean_response (str "The library opens at 9am.") :=
  C6_clean_response_idem (str "The library opens at 9am.") (by decide) (by decide)

end Rizvi
